import Mathlib

/-!
Shallow embedding of the message-scheduling core of the `ais-rm-bot`
repository (`scheduler.py`), together with theorems settling the frozen
claims about it.

Conventions of the embedding:
* `datetime` values are modelled as `Int` seconds (an absolute timeline);
  `timedelta` values are `Int` seconds.
* Python dictionaries holding configuration are modelled as structures of
  `Option` fields (a `none` field is an absent key); unknown extra keys of a
  `schedule` block are kept in an `extra_keys` list so that key-set
  validation can be stated faithfully.
* Fallible Python code (code that can raise) is modelled with
  `Except String`; the string is the exception message.
* External collaborators (the Google-calendar lookup, the Slack dispatch)
  are parameters: the calendar is a function producing the next matching
  event, and dispatch is outside the scheduling state.
* All characters are treated as ASCII (the configuration surface of the
  program); Python `str.lower` agrees with `Char.toLower` there.
-/

deriving instance DecidableEq for Except

namespace AisRmBot

/-! ## Generic string helpers (kernel-reducible stand-ins for Python string ops) -/

/-- Split a character list at every occurrence of `sep` (Python `str.split(sep)`). -/
def split_on_char (sep : Char) : List Char → List (List Char)
  | [] => [[]]
  | c :: rest =>
    if c = sep then [] :: split_on_char sep rest
    else
      match split_on_char sep rest with
      | [] => [[c]]
      | h :: t => (c :: h) :: t

/-- Decimal value of a digit list (most significant first). -/
def digits_nat (l : List Char) : Nat :=
  l.foldl (fun a c => 10 * a + (c.toNat - 48)) 0

/-- `Char.isDigit`-only and non-empty. -/
def all_digits (l : List Char) : Bool :=
  !l.isEmpty && l.all Char.isDigit

/-- Python whitespace stripped by `int(...)` (ASCII fragment). -/
def is_py_space (c : Char) : Bool :=
  c = ' ' || c = '\t' || c = '\n' || c = '\r'

/-- Strip leading and trailing whitespace (as Python `int` does). -/
def strip_spaces (l : List Char) : List Char :=
  ((l.dropWhile is_py_space).reverse.dropWhile is_py_space).reverse

/-- Digit run with optional single underscore separators between digits
(the body of a Python `int` literal). -/
def digits_underscore : List Char → Bool
  | [] => false
  | c :: rest => c.isDigit && du_rest rest
where
  du_rest : List Char → Bool
  | [] => true
  | c :: rest =>
    if c = '_' then
      match rest with
      | [] => false
      | d :: rest2 => d.isDigit && du_rest rest2
    else
      c.isDigit && du_rest rest

/-- Decimal value of a digit-with-underscores run. -/
def digits_underscore_val (l : List Char) : Int :=
  ((l.filter (fun c => c != '_')).foldl (fun a c => 10 * a + (c.toNat - 48)) 0 : Nat)

/-- Python `int(s)` for base 10 (ASCII): optional surrounding whitespace,
optional sign, digits with underscore separators.  `none` models the
`ValueError` raised on anything else. -/
def py_int_core (l : List Char) : Option Int :=
  match strip_spaces l with
  | [] => none
  | c :: rest =>
    if c = '+' then
      if digits_underscore rest then some (digits_underscore_val rest) else none
    else if c = '-' then
      if digits_underscore rest then some (-(digits_underscore_val rest)) else none
    else
      if digits_underscore (c :: rest) then some (digits_underscore_val (c :: rest)) else none

/-- Whether `int(...)` succeeds on these characters. -/
def py_int_ok (l : List Char) : Bool :=
  (py_int_core l).isSome

/-- Decimal digit character. -/
def digit_char (n : Nat) : Char := Char.ofNat (48 + n)

/-- Fuel-driven decimal rendering of a `Nat` (kernel-reducible). -/
def nat_repr_go : Nat → Nat → List Char
  | 0, _ => []
  | fuel + 1, n =>
    if n < 10 then [digit_char n]
    else nat_repr_go fuel (n / 10) ++ [digit_char (n % 10)]

/-- Decimal rendering of a `Nat`. -/
def nat_repr (n : Nat) : String := String.mk (nat_repr_go (n + 1) n)

/-- Decimal rendering of an `Int`. -/
def int_repr (i : Int) : String :=
  if i < 0 then "-" ++ nat_repr i.natAbs else nat_repr i.natAbs

/-- ASCII lower-casing of a whole string (Python `str.lower` on ASCII). -/
def str_lower (s : String) : String := String.mk (s.data.map Char.toLower)

/-- Code-point comparison of character lists (how Python sorts strings). -/
def chars_le : List Char → List Char → Bool
  | [], _ => true
  | _ :: _, [] => false
  | a :: xs, b :: ys =>
    if a.toNat < b.toNat then true
    else if b.toNat < a.toNat then false
    else chars_le xs ys

/-- Insert into a sorted list of strings. -/
def insert_sorted (x : String) : List String → List String
  | [] => [x]
  | y :: ys => if chars_le x.data y.data then x :: y :: ys else y :: insert_sorted x ys

/-- Sort strings by code point (Python `sorted`). -/
def sort_strings : List String → List String
  | [] => []
  | x :: xs => insert_sorted x (sort_strings xs)

/-- `', '`-joined single-quoted items, the interior of Python `str(list_of_str)`. -/
def quote_join : List String → String
  | [] => ""
  | [x] => "'" ++ x ++ "'"
  | x :: xs => "'" ++ x ++ "', " ++ quote_join xs

/-- Python `str` of a list of strings, e.g. `['a', 'b']`. -/
def py_str_list (l : List String) : String := "[" ++ quote_join l ++ "]"

/-- Python `','.join`. -/
def join_comma : List String → String
  | [] => ""
  | [x] => x
  | x :: xs => x ++ "," ++ join_comma xs

/-! ## `MessageScheduler.parse_offset` (scheduler.py lines 394-423)

The Python code matches `^([+-]?\d+)([mhdw])$` against `offset_str.lower()`,
converts group 1 with `int`, and returns a `timedelta` in the unit named by
group 2.  Durations are integers of seconds here. -/

/-- The regex match `^([+-]?\d+)([mhdw])$`: on success, the `int` of group 1
(sign included) and the unit character of group 2. -/
def offset_regex_match (l : List Char) : Option (Int × Char) :=
  match l with
  | [] => none
  | c :: rest =>
    let sb : Int × List Char :=
      if c = '+' then (1, rest) else if c = '-' then (-1, rest) else (1, l)
    match sb.2.getLast? with
    | none => none
    | some u =>
      if all_digits sb.2.dropLast then
        if u = 'm' || u = 'h' || u = 'd' || u = 'w' then
          some (sb.1 * (digits_nat sb.2.dropLast : Int), u)
        else none
      else none

/-- `MessageScheduler.parse_offset`.  A `.error` models the `ValueError`
raised when the pattern does not match. -/
def parse_offset (offset_str : String) : Except String Int :=
  match offset_regex_match ((str_lower offset_str).data) with
  | none =>
    .error ("Invalid offset format: '" ++ offset_str ++ "'. Use format like: -2h, -30m, -1d, -2w")
  | some (value, u) =>
    if u = 'm' then .ok (value * 60)
    else if u = 'h' then .ok (value * 3600)
    else if u = 'd' then .ok (value * 86400)
    else if u = 'w' then .ok (value * 604800)
    else .ok 0  -- unreachable: the regex admits only m/h/d/w (Python would fall off and return None)

/-! Spec-side definitions for claim C7 (the spec's own words, to be compared
with `parse_offset`): the pattern `^[+-]?\d+[mhdw]$` and the signed duration
in minutes/hours/days/weeks it denotes. -/

/-- The duration denoted by a string matching the spec pattern
`^[+-]?\d+[mhdw]$`: the optional sign read as `±1`, the digit run as an
integer, and the unit letter as the length of a minute/hour/day/week; the
value is their product in seconds.  `none` when the pattern does not match. -/
def offset_pattern_value (l : List Char) : Option Int :=
  match l with
  | [] => none
  | c :: rest =>
    let sb : Int × List Char :=
      if c = '+' then (1, rest) else if c = '-' then (-1, rest) else (1, l)
    match sb.2.getLast? with
    | none => none
    | some u =>
      if all_digits sb.2.dropLast then
        if u = 'm' then some (sb.1 * (digits_nat sb.2.dropLast : Int) * 60)
        else if u = 'h' then some (sb.1 * (digits_nat sb.2.dropLast : Int) * 3600)
        else if u = 'd' then some (sb.1 * (digits_nat sb.2.dropLast : Int) * 86400)
        else if u = 'w' then some (sb.1 * (digits_nat sb.2.dropLast : Int) * 604800)
        else none
      else none

/-- Acceptance of the spec pattern `^[+-]?\d+[mhdw]$` as written. -/
def matches_offset_pattern (s : String) : Bool :=
  (offset_pattern_value s.data).isSome

example : parse_offset "-2h" = .ok (-7200) := by decide
example : parse_offset "30m" = .ok 1800 := by decide
example : parse_offset "2H" = .ok 7200 := by decide
example : matches_offset_pattern "2H" = false := by decide
example : (parse_offset "2x").isOk = false := by decide
example : parse_offset "0m" = .ok 0 := by decide

/-! ## `CalendarEventTracker` (scheduler.py lines 79-185)

The SQLite table `calendar_events` has a UNIQUE constraint on
`(message_config_id, event_id)`; rows are modelled as an association list
keyed by that pair.  `created_at`/`updated_at` audit timestamps are not
modelled (no claim concerns them). -/

/-- The `status` column; the code only ever writes these two values. -/
inductive EventStatus
  | scheduled
  | sent
deriving DecidableEq, Repr

/-- One row of the `calendar_events` table (key columns held separately). -/
structure TrackedRecord where
  event_start_time : Int
  scheduled_send_time : Int
  job_id : String
  status : EventStatus
deriving DecidableEq, Repr

/-- The `calendar_events` table: rows keyed by `(message_config_id, event_id)`. -/
abbrev Tracker := List ((String × String) × TrackedRecord)

/-- Row-key test used by the SQL `WHERE message_config_id = ? AND event_id = ?`. -/
def row_key_matches (m e : String) (p : (String × String) × TrackedRecord) : Bool :=
  decide (p.1 = (m, e))

/-- `CalendarEventTracker.is_event_scheduled`: the first row for the key, when
present, with `status IN ('scheduled', 'sent')`. -/
def is_event_scheduled (t : Tracker) (message_config_id event_id : String) : Bool :=
  match t.find? (row_key_matches message_config_id event_id) with
  | some p => decide (p.2.status = .scheduled) || decide (p.2.status = .sent)
  | none => false

/-- `CalendarEventTracker.add_scheduled_event`: `INSERT OR REPLACE` of a row
with `status = 'scheduled'` (an upsert under the UNIQUE constraint). -/
def add_scheduled_event (t : Tracker) (message_config_id event_id : String)
    (event_start_time scheduled_send_time : Int) (job_id : String) : Tracker :=
  let r : TrackedRecord :=
    { event_start_time := event_start_time, scheduled_send_time := scheduled_send_time,
      job_id := job_id, status := .scheduled }
  if t.any (row_key_matches message_config_id event_id) then
    t.map (fun p => if p.1 = (message_config_id, event_id) then ((message_config_id, event_id), r) else p)
  else
    t ++ [((message_config_id, event_id), r)]

/-- `CalendarEventTracker.mark_as_sent`: `UPDATE ... SET status = 'sent'` on
the rows matching the key (a no-op when no row matches). -/
def mark_as_sent (t : Tracker) (message_config_id event_id : String) : Tracker :=
  t.map (fun p =>
    if p.1 = (message_config_id, event_id) then (p.1, { p.2 with status := .sent }) else p)

/-- Status of the row for a key, if any (the read-back used by the claims). -/
def tracker_status (t : Tracker) (m e : String) : Option EventStatus :=
  (t.find? (row_key_matches m e)).map (fun p => p.2.status)

/-- The tracker operations named by claim C8 that mutate the store
(`is_event_scheduled` is a pure query). -/
inductive TrackerOp
  | add (m e : String) (event_start scheduled_send : Int) (job_id : String)
  | markSent (m e : String)
deriving DecidableEq, Repr

/-- Apply a raw tracker operation (a direct call on `CalendarEventTracker`). -/
def apply_tracker_op (t : Tracker) (op : TrackerOp) : Tracker :=
  match op with
  | .add m e est sst jid => add_scheduled_event t m e est sst jid
  | .markSent m e => mark_as_sent t m e

/-- Apply a tracker operation the way the scheduler issues it:
`add_scheduled_event` is only reached after `is_event_scheduled` returned
false (`schedule_calendar_anchored_message`, lines 462-467 before 525-531). -/
def apply_guarded_op (t : Tracker) (op : TrackerOp) : Tracker :=
  match op with
  | .add m e est sst jid =>
    if is_event_scheduled t m e then t else add_scheduled_event t m e est sst jid
  | .markSent m e => mark_as_sent t m e

/-! ## `MessageScheduler` state and the calendar-anchor resolver
(scheduler.py lines 188-538) -/

/-- A calendar event as returned by `gcal.find_next_event` / `get_event_time`:
an identifier, a title, and a start time. -/
structure Event where
  id : String
  summary : String := ""
  startTime : Int
deriving DecidableEq, Repr

/-- A `calendar_anchor` configuration block (a dict; absent keys are `none`). -/
structure CalendarAnchor where
  event_name : Option String := none
  calendar_id : Option String := none
  offset : Option String := none
  latest_send_offset : Option String := none
  search_window_days : Option Int := none
deriving DecidableEq, Repr

/-- A job entry in the APScheduler job store: the job id, the absolute
`DateTrigger` fire time, and the bound kwargs of `send_calendar_message`. -/
structure Job where
  id : String
  run_date : Int
  event_id : String
  message_config_id : String
  event_start_time : Int
deriving DecidableEq, Repr

/-- An entry of `self.calendar_anchored_configs` (message payload is opaque). -/
structure CalConfig where
  id : String
  calendar_anchor : CalendarAnchor
  message_data : String := ""
deriving DecidableEq, Repr

/-- The scheduler state the claims concern: the durable tracker table, the
job store, and the in-memory calendar-anchored config list. -/
structure SchedulerState where
  tracker : Tracker
  jobs : List Job
  calendar_anchored_configs : List CalConfig
deriving DecidableEq, Repr

/-- `self.scheduler.add_job(..., id=job_id, replace_existing=True)`: replace
the job with this id if present, else append. -/
def add_job (jobs : List Job) (j : Job) : List Job :=
  if jobs.any (fun x => decide (x.id = j.id)) then
    jobs.map (fun x => if x.id = j.id then j else x)
  else
    jobs ++ [j]

/-- The success tail of `schedule_calendar_anchored_message` (lines 497-531):
clamp a past send time to `now + 5s`, register the `DateTrigger` job, and
record the tracked event with status `scheduled`. -/
def commit_schedule (st : SchedulerState) (message_config_id : String) (event : Event)
    (scheduled_send_time now : Int) : SchedulerState :=
  let sst := if scheduled_send_time < now then now + 5 else scheduled_send_time
  let job_id := "calendar_" ++ message_config_id ++ "_" ++ event.id
  { st with
    jobs := add_job st.jobs
      { id := job_id, run_date := sst, event_id := event.id,
        message_config_id := message_config_id, event_start_time := event.startTime },
    tracker := add_scheduled_event st.tracker message_config_id event.id
      event.startTime sst job_id }

/-- The three outcomes of one resolution pass.  The Python method returns
`True` exactly on the `Scheduled` path; the two `False` paths are told apart
by their log messages (lines 454-458, 463-467, 478-482, 490-495). -/
inductive ResolveOutcome
  | Scheduled
  | NotReady
  | AlreadyTracked
deriving DecidableEq, Repr

/-- `MessageScheduler.schedule_calendar_anchored_message` (lines 425-538).
`event?` is the result of the external `find_next_event` call; `now` is the
wall clock read at line 475.  A `.error` models a propagating exception
(`parse_offset`'s `ValueError`). -/
def schedule_calendar_anchored_message (st : SchedulerState) (message_config_id : String)
    (calendar_anchor : CalendarAnchor) (event? : Option Event) (now : Int) :
    Except String (ResolveOutcome × SchedulerState) :=
  match event? with
  | none => .ok (.NotReady, st)  -- event not found in the search window
  | some event =>
    if is_event_scheduled st.tracker message_config_id event.id then
      .ok (.AlreadyTracked, st)  -- already scheduled for this event
    else
      match parse_offset (calendar_anchor.offset.getD "0m") with
      | .error e => .error e
      | .ok off =>
        if event.startTime < now then
          .ok (.NotReady, st)  -- the event itself has already passed
        else
          match calendar_anchor.latest_send_offset with
          | some latest_str =>
            match parse_offset latest_str with
            | .error e => .error e
            | .ok latest_off =>
              if now > event.startTime + latest_off then
                .ok (.NotReady, st)  -- past the latest send time
              else
                .ok (.Scheduled, commit_schedule st message_config_id event (event.startTime + off) now)
          | none =>
            .ok (.Scheduled, commit_schedule st message_config_id event (event.startTime + off) now)

/-- One iteration of the reconciliation loop (lines 549-564): the `try`
swallows a raised exception, leaving state and count untouched; a `True`
return (`Scheduled`) increments the count. -/
def reconcile_step (calendar : CalConfig → Option Event) (now : Int)
    (acc : SchedulerState × Nat) (config : CalConfig) : SchedulerState × Nat :=
  match schedule_calendar_anchored_message acc.1 config.id config.calendar_anchor
      (calendar config) now with
  | .error _ => acc
  | .ok (outcome, st') => (st', if outcome = ResolveOutcome.Scheduled then acc.2 + 1 else acc.2)

/-- `MessageScheduler.reconcile_calendar_messages` (lines 540-569): resolve
every registered calendar-anchored config in order, returning the final
state and `scheduled_count`. -/
def reconcile_calendar_messages (calendar : CalConfig → Option Event) (now : Int)
    (st : SchedulerState) : SchedulerState × Nat :=
  st.calendar_anchored_configs.foldl (reconcile_step calendar now) (st, 0)

/-- `MessageScheduler.clear_all_jobs` (lines 241-245):
`self.scheduler.remove_all_jobs()` removes the jobs of every job store. -/
def clear_all_jobs (st : SchedulerState) : SchedulerState :=
  { st with jobs := [] }

/-- The clearing step at the top of `schedule_messages_from_yaml`
(lines 681-683): `clear_all_jobs` followed by resetting
`self.calendar_anchored_configs` to `[]`. -/
def reload_clear_step (st : SchedulerState) : SchedulerState :=
  { clear_all_jobs st with calendar_anchored_configs := [] }

/-! ## Time and date format checks (`datetime.strptime`)

`strptime(t, '%H:%M')` succeeds exactly when the string is `H:M` with `H`
one or two digits valued 0-23 and `M` one or two digits valued 0-59
(CPython `TimeRE` patterns `2[0-3]|[0-1]\d|\d` and `[0-5]\d|\d`).
`strptime(d, '%Y-%m-%d')` needs a four-digit year `>= 1`, a one-or-two digit
month 1-12 and day 1-31, and the day must exist in that month of that year
(the `datetime` constructor check). -/

/-- The `%H` field. -/
def hour_ok (l : List Char) : Bool :=
  all_digits l && (l.length = 1 || l.length = 2) && decide (digits_nat l ≤ 23)

/-- The `%M` field. -/
def minute_ok (l : List Char) : Bool :=
  all_digits l && (l.length = 1 || l.length = 2) && decide (digits_nat l ≤ 59)

/-- `strptime(s, '%H:%M')`, returning (hour, minute). -/
def parse_time_hm (s : String) : Option (Nat × Nat) :=
  match split_on_char ':' s.data with
  | [hs, ms] =>
    if hour_ok hs && minute_ok ms then some (digits_nat hs, digits_nat ms) else none
  | _ => none

/-- Whether `strptime(s, '%H:%M')` succeeds. -/
def is_valid_time (s : String) : Bool :=
  (parse_time_hm s).isSome

/-- Gregorian leap year. -/
def is_leap (y : Nat) : Bool :=
  (y % 4 = 0 && y % 100 ≠ 0) || y % 400 = 0

/-- Length of a month. -/
def days_in_month (y m : Nat) : Nat :=
  if m = 2 then (if is_leap y then 29 else 28)
  else if m = 4 || m = 6 || m = 9 || m = 11 then 30
  else 31

/-- The `%Y` field: exactly four digits, and `datetime` needs year `>= 1`. -/
def year_ok (l : List Char) : Bool :=
  all_digits l && decide (l.length = 4) && decide (1 ≤ digits_nat l)

/-- The `%m` field. -/
def month_ok (l : List Char) : Bool :=
  all_digits l && (l.length = 1 || l.length = 2) &&
    decide (1 ≤ digits_nat l) && decide (digits_nat l ≤ 12)

/-- The `%d` field. -/
def day_field_ok (l : List Char) : Bool :=
  all_digits l && (l.length = 1 || l.length = 2) &&
    decide (1 ≤ digits_nat l) && decide (digits_nat l ≤ 31)

/-- `strptime(s, '%Y-%m-%d')`, returning (year, month, day). -/
def parse_date (s : String) : Option (Nat × Nat × Nat) :=
  match split_on_char '-' s.data with
  | [ys, ms, ds] =>
    if year_ok ys && month_ok ms && day_field_ok ds &&
        decide (digits_nat ds ≤ days_in_month (digits_nat ys) (digits_nat ms)) then
      some (digits_nat ys, digits_nat ms, digits_nat ds)
    else none
  | _ => none

/-- Whether `strptime(s, '%Y-%m-%d')` succeeds. -/
def is_valid_date (s : String) : Bool :=
  (parse_date s).isSome

/-! ## `MessageScheduler.validate_schedule` (scheduler.py lines 267-353) -/

/-- An `end_conditions` block (a dict; absent keys are `none`). -/
structure EndConditions where
  end_date : Option String := none
  max_occurrences : Option Int := none
  end_after_duration : Option String := none
deriving DecidableEq, Repr

/-- A `schedule` block.  Each modelled key is an `Option` (a `none` is an
absent key); any further keys the dict carries are listed in `extra_keys`. -/
structure Schedule where
  frequency : Option String := none
  start_date : Option String := none
  time : Option String := none
  timezone : Option String := none
  interval : Option Int := none
  end_conditions : Option EndConditions := none
  days_of_week : Option (List String) := none
  day_of_month : Option Int := none
  week_of_month : Option Int := none
  day_of_week : Option String := none
  extra_keys : List String := []
deriving DecidableEq, Repr

/-- `set(schedule.keys())` of the dict the structure models. -/
def provided_keys (s : Schedule) : List String :=
  (if s.frequency.isSome then ["frequency"] else []) ++
  (if s.start_date.isSome then ["start_date"] else []) ++
  (if s.time.isSome then ["time"] else []) ++
  (if s.timezone.isSome then ["timezone"] else []) ++
  (if s.interval.isSome then ["interval"] else []) ++
  (if s.end_conditions.isSome then ["end_conditions"] else []) ++
  (if s.days_of_week.isSome then ["days_of_week"] else []) ++
  (if s.day_of_month.isSome then ["day_of_month"] else []) ++
  (if s.week_of_month.isSome then ["week_of_month"] else []) ++
  (if s.day_of_week.isSome then ["day_of_week"] else []) ++
  s.extra_keys

/-- `base_keys` (line 278): allowed for every frequency, `interval` included. -/
def base_keys : List String :=
  ["start_date", "time", "timezone", "frequency", "interval"]

/-- `frequency_specific_keys` (lines 279-284); `none` for an unknown frequency. -/
def frequency_specific_keys (frequency : String) : Option (List String) :=
  if frequency = "once" then some []
  else if frequency = "daily" then some ["end_conditions"]
  else if frequency = "weekly" then some ["days_of_week", "end_conditions"]
  else if frequency = "monthly" then some ["day_of_month", "week_of_month", "day_of_week", "end_conditions"]
  else none

/-- `MessageScheduler.validate_schedule`.  A `.error` is a raised
`ScheduleValidationError` whose message is the payload. -/
def validate_schedule (schedule : Schedule) (message_index : Nat) : Except String Unit :=
  match frequency_specific_keys (schedule.frequency.getD "once") with
  | none =>
    .error ("Message " ++ nat_repr message_index ++ ": Invalid frequency '" ++
      schedule.frequency.getD "once" ++
      "'. Must be one of: ['once', 'daily', 'weekly', 'monthly']")
  | some specific =>
    if (provided_keys schedule).filter
        (fun k => !((base_keys ++ specific).contains k)) ≠ [] then
      .error ("Message " ++ nat_repr message_index ++ ": Redundant keys for frequency '" ++
        schedule.frequency.getD "once" ++ "': " ++
        py_str_list (sort_strings ((provided_keys schedule).filter
          (fun k => !((base_keys ++ specific).contains k)))) ++
        ". Allowed keys: " ++ py_str_list (sort_strings (base_keys ++ specific)))
    else if schedule.frequency.getD "once" = "once" ∧ schedule.end_conditions.isSome then
      .error ("Message " ++ nat_repr message_index ++
        ": 'end_conditions' not allowed for 'once' frequency")
    else if schedule.frequency.getD "once" = "once" ∧
        schedule.interval ≠ none ∧ schedule.interval ≠ some 1 then
      .error ("Message " ++ nat_repr message_index ++
        ": 'interval' not meaningful for 'once' frequency")
    else if schedule.frequency.getD "once" = "weekly" ∧ schedule.days_of_week = none then
      .error ("Message " ++ nat_repr message_index ++
        ": 'days_of_week' required for weekly frequency")
    else if schedule.frequency.getD "once" = "monthly" ∧
        ¬ (schedule.day_of_month.isSome ∨
           (schedule.week_of_month.isSome ∧ schedule.day_of_week.isSome)) then
      .error ("Message " ++ nat_repr message_index ++
        ": Monthly frequency requires either 'day_of_month' or both 'week_of_month' and 'day_of_week'")
    else if schedule.frequency.getD "once" = "monthly" ∧ schedule.day_of_month.isSome ∧
        schedule.week_of_month.isSome ∧ schedule.day_of_week.isSome then
      .error ("Message " ++ nat_repr message_index ++
        ": Cannot specify both 'day_of_month' and 'week_of_month'+'day_of_week' for monthly frequency")
    else if schedule.time.getD "" ≠ "" ∧ ¬ is_valid_time (schedule.time.getD "") then
      .error ("Message " ++ nat_repr message_index ++ ": Invalid time format '" ++
        schedule.time.getD "" ++ "'. Use HH:MM format")
    else if schedule.start_date.getD "" ≠ "" ∧ ¬ is_valid_date (schedule.start_date.getD "") then
      .error ("Message " ++ nat_repr message_index ++ ": Invalid start_date format '" ++
        schedule.start_date.getD "" ++ "'. Use YYYY-MM-DD format")
    else
      .ok ()

/-! ## `parse_end_conditions` and `create_trigger` (scheduler.py lines 355-392, 571-671) -/

/-- An `end_date` value handed to the trigger: either the pass-through
configuration string or a date computed from `date.today()` (a day ordinal). -/
inductive EndDateVal
  | fromStr (s : String)
  | fromDays (d : Int)
deriving DecidableEq, Repr

/-- The dictionary `parse_end_conditions` returns. -/
structure EndParams where
  end_date : Option EndDateVal := none
  max_instances : Option Int := none
deriving DecidableEq, Repr

/-- `MessageScheduler.parse_end_conditions` (lines 355-392).  `today` is
`date.today()` as a day ordinal.  The only exception path is `int()` on the
digits of `end_after_duration`. -/
def parse_end_conditions (today : Int) (ec : EndConditions) : Except String EndParams :=
  let r1 : EndParams :=
    match ec.end_date with
    | some d => { end_date := some (.fromStr d) }
    | none => {}
  let r2 : EndParams :=
    match ec.max_occurrences with
    | some m => { r1 with max_instances := some m }
    | none => r1
  match ec.end_after_duration with
  | none => .ok r2
  | some dur =>
    match dur.data.getLast? with
    | some u =>
      if u = 'd' then
        match py_int_core dur.data.dropLast with
        | some days => .ok { r2 with end_date := some (.fromDays (today + days)) }
        | none => .error ("invalid literal for int() with base 10: '" ++
            String.mk dur.data.dropLast ++ "'")
      else if u = 'w' then
        match py_int_core dur.data.dropLast with
        | some weeks => .ok { r2 with end_date := some (.fromDays (today + 7 * weeks)) }
        | none => .error ("invalid literal for int() with base 10: '" ++
            String.mk dur.data.dropLast ++ "'")
      else if u = 'm' then
        match py_int_core dur.data.dropLast with
        | some months => .ok { r2 with end_date := some (.fromDays (today + 30 * months)) }
        | none => .error ("invalid literal for int() with base 10: '" ++
            String.mk dur.data.dropLast ++ "'")
      else .ok r2
    | none => .ok r2

/-- Whether `parse_end_conditions` can raise on this block: when
`end_after_duration` ends in `d`/`w`/`m`, its digits must satisfy `int()`. -/
def ec_ok (ec : EndConditions) : Bool :=
  match ec.end_after_duration with
  | none => true
  | some dur =>
    match dur.data.getLast? with
    | some u =>
      if u = 'd' || u = 'w' || u = 'm' then py_int_ok dur.data.dropLast else true
    | none => true

/-- `hour, minute = map(int, time_str.split(':'))` (line 587): exactly two
parts, each accepted by `int()`. -/
def split_time (t : String) : Except String (Int × Int) :=
  match split_on_char ':' t.data with
  | [hs, ms] =>
    match py_int_core hs, py_int_core ms with
    | some h, some m => .ok (h, m)
    | _, _ => .error ("invalid literal for int() in time string '" ++ t ++ "'")
  | _ => .error ("cannot unpack time string '" ++ t ++ "'")

/-- `day_mapping.get(day.lower(), day)` (lines 624-629, 657-662): the seven
canonical day names, case-insensitively, map to cron abbreviations; anything
else passes through unchanged. -/
def day_mapping_lookup (day : String) : String :=
  if str_lower day = "monday" then "mon"
  else if str_lower day = "tuesday" then "tue"
  else if str_lower day = "wednesday" then "wed"
  else if str_lower day = "thursday" then "thu"
  else if str_lower day = "friday" then "fri"
  else if str_lower day = "saturday" then "sat"
  else if str_lower day = "sunday" then "sun"
  else day

/-- Python truthiness filter used for `if start_date:` when filling
`trigger_kwargs` — `None` and `''` are falsy. -/
def truthy_str (s? : Option String) : Option String :=
  match s? with
  | some s => if s = "" then none else some s
  | none => none

/-- A built trigger.  `DateTrigger`/`CronTrigger` construction is the
external APScheduler library; triggers are data here, carrying exactly the
kwargs the code passes. -/
inductive Trigger
  | dateT (year month day : Nat) (hour minute : Nat) (timezone : String)
  | cronT (day_of_week : Option String) (day : Option String) (hour minute : Int)
      (timezone : String) (start_date : Option String) (end_date : Option EndDateVal)
deriving DecidableEq, Repr

/-- `MessageScheduler.create_trigger` (lines 571-671).  A `.error` is a
raised exception; `.ok none` is the implicit `return None` on an
unrecognized frequency (the `if/elif` chain has no `else`). -/
def create_trigger (today : Int) (schedule : Schedule) : Except String (Option Trigger) :=
  match split_time (schedule.time.getD "00:00") with
  | .error e => .error e
  | .ok (hour, minute) =>
    match parse_end_conditions today (schedule.end_conditions.getD {}) with
    | .error e => .error e
    | .ok end_params =>
      if schedule.frequency.getD "once" = "once" then
        match truthy_str schedule.start_date with
        | none => .error "'start_date' is required for 'once' frequency"
        | some sd =>
          -- strptime(f"{start_date} {time_str}", '%Y-%m-%d %H:%M')
          match parse_date sd, parse_time_hm (schedule.time.getD "00:00") with
          | some (y, mo, d), some (h, mi) =>
            .ok (some (.dateT y mo d h mi (schedule.timezone.getD "Europe/London")))
          | _, _ =>
            .error ("time data '" ++ sd ++ " " ++ schedule.time.getD "00:00" ++
              "' does not match format '%Y-%m-%d %H:%M'")
      else if schedule.frequency.getD "once" = "daily" then
        .ok (some (.cronT none
          (if schedule.interval.getD 1 = 1 then none
           else some ("*/" ++ int_repr (schedule.interval.getD 1)))
          hour minute (schedule.timezone.getD "Europe/London")
          (truthy_str schedule.start_date) end_params.end_date))
      else if schedule.frequency.getD "once" = "weekly" then
        .ok (some (.cronT
          (some (join_comma ((schedule.days_of_week.getD []).map day_mapping_lookup)))
          none hour minute (schedule.timezone.getD "Europe/London")
          (truthy_str schedule.start_date) end_params.end_date))
      else if schedule.frequency.getD "once" = "monthly" then
        match schedule.day_of_month with
        | some dom =>
          .ok (some (.cronT none (some (int_repr dom)) hour minute
            (schedule.timezone.getD "Europe/London")
            (truthy_str schedule.start_date) end_params.end_date))
        | none =>
          match schedule.day_of_week with
          | none => .error "AttributeError: 'NoneType' object has no attribute 'lower'"
          | some dow =>
            .ok (some (.cronT (some (day_mapping_lookup dow))
              (some ((match schedule.week_of_month with
                      | some w => int_repr w
                      | none => "None") ++ "-7"))
              hour minute (schedule.timezone.getD "Europe/London")
              (truthy_str schedule.start_date) end_params.end_date))
      else
        .ok none

/-! Spec-side field sets for claim C6: the claim says `interval` is a
recognized field only for the `daily` frequency. -/

/-- The allowed field set as claim C6 states it: base fields without
`interval` except for `daily`, plus the frequency-specific fields. -/
def claim_allowed_keys (frequency : String) : List String :=
  ["start_date", "time", "timezone", "frequency"] ++
  (if frequency = "daily" then ["interval"] else []) ++
  ((frequency_specific_keys frequency).getD [])

/-- The seven canonical weekday names. -/
def canonical_day_names : List String :=
  ["monday", "tuesday", "wednesday", "thursday", "friday", "saturday", "sunday"]

/-- The cron weekday abbreviations. -/
def day_abbreviations : List String :=
  ["mon", "tue", "wed", "thu", "fri", "sat", "sun"]

/-! ## Helper lemmas about the tracker and job store -/

theorem row_key_matches_self (m e : String) (r : TrackedRecord) :
    row_key_matches m e ((m, e), r) = true := by
  simp [row_key_matches]

theorem status_qualifies (s : EventStatus) :
    (decide (s = EventStatus.scheduled) || decide (s = EventStatus.sent)) = true := by
  cases s <;> rfl

/-- In the two-status model, a key with any row at all counts as tracked;
so an untracked key has no row. -/
theorem find?_eq_none_of_not_tracked {t : Tracker} {m e : String}
    (h : is_event_scheduled t m e = false) :
    t.find? (row_key_matches m e) = none := by
  unfold is_event_scheduled at h
  cases hf : t.find? (row_key_matches m e) with
  | none => rfl
  | some p =>
    exfalso
    rw [hf] at h
    have hq := status_qualifies p.2.status
    simp [hq] at h

theorem any_eq_false_of_find?_eq_none {α : Type} {p : α → Bool} {l : List α}
    (h : l.find? p = none) : l.any p = false := by
  rw [List.find?_eq_none] at h
  rw [List.any_eq_false]
  exact h

theorem find?_append_some {α : Type} {p : α → Bool} {l₁ l₂ : List α} {x : α}
    (h : l₁.find? p = some x) : (l₁ ++ l₂).find? p = some x := by
  induction l₁ with
  | nil => cases h
  | cons a l ih =>
    cases hp : p a with
    | true =>
      rw [List.find?_cons_of_pos _ hp] at h
      rw [List.cons_append, List.find?_cons_of_pos _ hp]
      exact h
    | false =>
      rw [List.find?_cons_of_neg _ (by simp [hp])] at h
      rw [List.cons_append, List.find?_cons_of_neg _ (by simp [hp])]
      exact ih h

theorem find?_map_replace (t : Tracker) (m e : String) (r : TrackedRecord)
    (h : t.any (row_key_matches m e) = true) :
    (t.map (fun p => if p.1 = (m, e) then ((m, e), r) else p)).find?
      (row_key_matches m e) = some ((m, e), r) := by
  induction t with
  | nil => cases h
  | cons p rest ih =>
    by_cases hp : p.1 = (m, e)
    · simp only [List.map_cons, if_pos hp]
      exact List.find?_cons_of_pos _ (row_key_matches_self m e r)
    · have hkey : row_key_matches m e p = false := by
        simp [row_key_matches, hp]
      simp only [List.any_cons, hkey, Bool.false_or] at h
      simp only [List.map_cons, if_neg hp]
      rw [List.find?_cons_of_neg _ (by simp [hkey])]
      exact ih h

theorem find?_append_single (t : Tracker) (m e : String) (r : TrackedRecord)
    (h : t.any (row_key_matches m e) = false) :
    (t ++ [((m, e), r)]).find? (row_key_matches m e) = some ((m, e), r) := by
  induction t with
  | nil => simp [List.find?, row_key_matches_self]
  | cons p rest ih =>
    simp only [List.any_cons, Bool.or_eq_false_iff] at h
    simp only [List.cons_append]
    rw [List.find?_cons_of_neg _ (by simp [h.1])]
    exact ih h.2

/-- After `add_scheduled_event`, the looked-up row for the key is exactly the
freshly written `scheduled` row. -/
theorem find?_add_scheduled_event (t : Tracker) (m e : String) (est sst : Int) (jid : String) :
    (add_scheduled_event t m e est sst jid).find? (row_key_matches m e) =
      some ((m, e), { event_start_time := est, scheduled_send_time := sst,
                      job_id := jid, status := .scheduled }) := by
  unfold add_scheduled_event
  by_cases h : t.any (row_key_matches m e) = true
  · rw [if_pos h]; exact find?_map_replace t m e _ h
  · have h' : t.any (row_key_matches m e) = false := by revert h; cases t.any (row_key_matches m e) <;> simp
    rw [if_neg h]; exact find?_append_single t m e _ h'

theorem is_event_scheduled_after_add (t : Tracker) (m e : String)
    (est sst : Int) (jid : String) :
    is_event_scheduled (add_scheduled_event t m e est sst jid) m e = true := by
  unfold is_event_scheduled
  rw [find?_add_scheduled_event]
  exact status_qualifies _

/-- Adding a previously untracked key appends exactly one row for it. -/
theorem countP_add_of_not_tracked {t : Tracker} {m e : String}
    (est sst : Int) (jid : String) (h : is_event_scheduled t m e = false) :
    (add_scheduled_event t m e est sst jid).countP (row_key_matches m e) = 1 := by
  have hnone := find?_eq_none_of_not_tracked h
  have hany := any_eq_false_of_find?_eq_none hnone
  unfold add_scheduled_event
  rw [if_neg (by simp [hany])]
  rw [List.countP_append]
  have hzero : t.countP (row_key_matches m e) = 0 := by
    rw [List.countP_eq_zero]
    rw [List.find?_eq_none] at hnone
    exact hnone
  rw [hzero]
  simp [List.countP, List.countP.go, row_key_matches_self]

/-- Inversion of a `Scheduled` outcome: the key was untracked, the offset
parsed, and the final state is the committed one. -/
theorem resolve_scheduled_inv {st : SchedulerState} {m : String} {anchor : CalendarAnchor}
    {E : Event} {now : Int} {st₁ : SchedulerState}
    (h : schedule_calendar_anchored_message st m anchor (some E) now = .ok (.Scheduled, st₁)) :
    is_event_scheduled st.tracker m E.id = false ∧
    ∃ off, parse_offset (anchor.offset.getD "0m") = .ok off ∧
      st₁ = commit_schedule st m E (E.startTime + off) now := by
  simp only [schedule_calendar_anchored_message] at h
  cases hs : is_event_scheduled st.tracker m E.id with
  | true => rw [hs] at h; simp at h
  | false =>
    rw [hs] at h
    rw [if_neg (by simp)] at h
    cases hp : parse_offset (anchor.offset.getD "0m") with
    | error e => rw [hp] at h; cases h
    | ok off =>
      rw [hp] at h
      dsimp only at h
      by_cases hpast : E.startTime < now
      · rw [if_pos hpast] at h; simp at h
      · rw [if_neg hpast] at h
        cases hl : anchor.latest_send_offset with
        | none =>
          rw [hl] at h
          dsimp only at h
          injection h with h'
          injection h' with h1 h2
          exact ⟨rfl, off, rfl, h2.symm⟩
        | some lstr =>
          rw [hl] at h
          dsimp only at h
          cases hlp : parse_offset lstr with
          | error e => rw [hlp] at h; cases h
          | ok lv =>
            rw [hlp] at h
            dsimp only at h
            by_cases hd : now > E.startTime + lv
            · rw [if_pos hd] at h; simp at h
            · rw [if_neg hd] at h
              injection h with h'
              injection h' with h1 h2
              exact ⟨rfl, off, rfl, h2.symm⟩

/-- The job-id test of `add_job`'s `replace_existing` upsert. -/
def job_id_matches (jid : String) (x : Job) : Bool :=
  decide (x.id = jid)

theorem job_find?_map_replace (jobs : List Job) (j : Job)
    (h : jobs.any (fun x => decide (x.id = j.id)) = true) :
    (jobs.map (fun x => if x.id = j.id then j else x)).find? (job_id_matches j.id) =
      some j := by
  induction jobs with
  | nil => cases h
  | cons x rest ih =>
    by_cases hx : x.id = j.id
    · simp only [List.map_cons, if_pos hx]
      exact List.find?_cons_of_pos _ (by simp [job_id_matches])
    · simp only [List.any_cons, decide_eq_true_eq, hx, decide_False, Bool.false_or] at h
      simp only [List.map_cons, if_neg hx]
      rw [List.find?_cons_of_neg _ (by simp [job_id_matches, hx])]
      exact ih h

theorem job_find?_append_single (jobs : List Job) (j : Job)
    (h : jobs.any (fun x => decide (x.id = j.id)) = false) :
    (jobs ++ [j]).find? (job_id_matches j.id) = some j := by
  induction jobs with
  | nil => simp [List.find?, job_id_matches]
  | cons x rest ih =>
    simp only [List.any_cons, Bool.or_eq_false_iff] at h
    simp only [List.cons_append]
    rw [List.find?_cons_of_neg _ (by simp [job_id_matches]; simpa using h.1)]
    exact ih h.2

/-- After `add_job`, the looked-up job for the id is the freshly added one. -/
theorem find?_add_job (jobs : List Job) (j : Job) :
    (add_job jobs j).find? (job_id_matches j.id) = some j := by
  unfold add_job
  by_cases h : jobs.any (fun x => decide (x.id = j.id)) = true
  · rw [if_pos h]; exact job_find?_map_replace jobs j h
  · have h' : jobs.any (fun x => decide (x.id = j.id)) = false := by
      revert h; cases jobs.any (fun x => decide (x.id = j.id)) <;> simp
    rw [if_neg h]; exact job_find?_append_single jobs j h'

/-! ## Claim C1 — idempotence of calendar resolution -/

/-- C1: if `schedule_calendar_anchored_message` returns `Scheduled` for a
message id and the calendar's next matching event `E`, an immediately
subsequent call for the same message id with the calendar still returning
`E` returns `AlreadyTracked` with the state unchanged (no new job, no new
record), and the tracker then holds exactly one record keyed
`(message id, E.id)`. -/
theorem resolve_idempotent (st : SchedulerState) (m : String) (anchor : CalendarAnchor)
    (E : Event) (now now₂ : Int) (st₁ : SchedulerState)
    (h : schedule_calendar_anchored_message st m anchor (some E) now =
      .ok (.Scheduled, st₁)) :
    schedule_calendar_anchored_message st₁ m anchor (some E) now₂ =
      .ok (.AlreadyTracked, st₁) ∧
    st₁.tracker.countP (row_key_matches m E.id) = 1 := by
  obtain ⟨hs, off, hoff, hst⟩ := resolve_scheduled_inv h
  subst hst
  have htracker : (commit_schedule st m E (E.startTime + off) now).tracker =
      add_scheduled_event st.tracker m E.id E.startTime
        (if E.startTime + off < now then now + 5 else E.startTime + off)
        ("calendar_" ++ m ++ "_" ++ E.id) := rfl
  have h2 : is_event_scheduled
      (commit_schedule st m E (E.startTime + off) now).tracker m E.id = true := by
    rw [htracker]; exact is_event_scheduled_after_add _ _ _ _ _ _
  constructor
  · simp only [schedule_calendar_anchored_message, h2]
    simp
  · rw [htracker]
    exact countP_add_of_not_tracked _ _ _ hs

/-- Witness for C1 at a concrete input. -/
theorem resolve_idempotent_witness :
    schedule_calendar_anchored_message
        ⟨[(("m1", "e1"), ⟨1000, 1000, "calendar_m1_e1", .scheduled⟩)],
         [⟨"calendar_m1_e1", 1000, "e1", "m1", 1000⟩], []⟩
        "m1" {} (some ⟨"e1", "", 1000⟩) 2000 =
      .ok (.AlreadyTracked,
        ⟨[(("m1", "e1"), ⟨1000, 1000, "calendar_m1_e1", .scheduled⟩)],
         [⟨"calendar_m1_e1", 1000, "e1", "m1", 1000⟩], []⟩) ∧
    (⟨[(("m1", "e1"), ⟨1000, 1000, "calendar_m1_e1", .scheduled⟩)],
      [⟨"calendar_m1_e1", 1000, "e1", "m1", 1000⟩], []⟩ : SchedulerState).tracker.countP
      (row_key_matches "m1" "e1") = 1 :=
  resolve_idempotent ⟨[], [], []⟩ "m1" {} ⟨"e1", "", 1000⟩ 1000 2000 _ (by decide)

/-! ## Claim C2 — deadline enforcement -/

/-- C2 (amended): for a resolved event whose key is not already tracked and
whose anchor offset parses, if the event start is not in the past,
`latest_send_offset` is set and parses, and `now` is strictly past
`startTime + parseOffset(latest_send_offset)`, then the resolver returns
`NotReady` and leaves the state unchanged (no job, no tracker record). -/
theorem resolve_deadline_enforcement (st : SchedulerState) (m : String)
    (anchor : CalendarAnchor) (E : Event) (now off lv : Int) (lstr : String)
    (htr : is_event_scheduled st.tracker m E.id = false)
    (hoff : parse_offset (anchor.offset.getD "0m") = .ok off)
    (hfuture : ¬ E.startTime < now)
    (hl : anchor.latest_send_offset = some lstr)
    (hlv : parse_offset lstr = .ok lv)
    (hdead : now > E.startTime + lv) :
    schedule_calendar_anchored_message st m anchor (some E) now = .ok (.NotReady, st) := by
  simp only [schedule_calendar_anchored_message]
  rw [htr]
  rw [if_neg (by simp)]
  rw [hoff]
  dsimp only
  rw [if_neg hfuture, hl]
  dsimp only
  rw [hlv]
  dsimp only
  rw [if_pos hdead]

/-- Witness for C2 at a concrete input: event at 1000, `now = 1000`
(the T−1h of the spec example scaled to seconds), deadline T−90m already
past. -/
theorem resolve_deadline_enforcement_witness :
    schedule_calendar_anchored_message ⟨[], [], []⟩ "m1"
        { latest_send_offset := some "-90m" } (some ⟨"e1", "", 1000⟩) 1000 =
      .ok (.NotReady, ⟨[], [], []⟩) :=
  resolve_deadline_enforcement ⟨[], [], []⟩ "m1" { latest_send_offset := some "-90m" }
    ⟨"e1", "", 1000⟩ 1000 0 (-5400) "-90m" (by decide) (by decide) (by decide)
    (by decide) (by decide) (by decide)

/-- Counterexample to C2 as stated.  First: an already-tracked pair with a
future event and an elapsed deadline returns `AlreadyTracked`, not the
claimed `NotReady` (the tracked check at lines 462-467 precedes the deadline
check).  Second: with a malformed `offset` the call raises (`parse_offset`
at line 471) instead of returning `NotReady`, although the claim's
hypotheses hold. -/
theorem deadline_claim_counterexample :
    (schedule_calendar_anchored_message
        ⟨[(("m1", "e1"), ⟨1000, 900, "j", .scheduled⟩)], [], []⟩ "m1"
        { latest_send_offset := some "-90m" } (some ⟨"e1", "", 1000⟩) 1000 =
      .ok (.AlreadyTracked, ⟨[(("m1", "e1"), ⟨1000, 900, "j", .scheduled⟩)], [], []⟩)) ∧
    ResolveOutcome.AlreadyTracked ≠ ResolveOutcome.NotReady ∧
    (schedule_calendar_anchored_message ⟨[], [], []⟩ "m1"
        { offset := some "2x", latest_send_offset := some "-90m" }
        (some ⟨"e1", "", 1000⟩) 1000 =
      .error "Invalid offset format: '2x'. Use format like: -2h, -30m, -1d, -2w") :=
  ⟨by decide, by decide, by decide⟩

/-! ## Claim C4 — past-event guard -/

/-- C4 (amended): for a resolved event whose key is not already tracked and
whose anchor offset parses, if the event start is strictly before `now`, the
resolver returns `NotReady` with the state unchanged, regardless of
`latest_send_offset` (which is quantified freely, even malformed). -/
theorem resolve_past_event_guard (st : SchedulerState) (m : String)
    (anchor : CalendarAnchor) (E : Event) (now off : Int)
    (htr : is_event_scheduled st.tracker m E.id = false)
    (hoff : parse_offset (anchor.offset.getD "0m") = .ok off)
    (hpast : E.startTime < now) :
    schedule_calendar_anchored_message st m anchor (some E) now = .ok (.NotReady, st) := by
  simp only [schedule_calendar_anchored_message]
  rw [htr]
  rw [if_neg (by simp)]
  rw [hoff]
  dsimp only
  rw [if_pos hpast]

/-- Witness for C4 at a concrete input; `latest_send_offset` is even a
malformed offset string, exercising "regardless". -/
theorem resolve_past_event_guard_witness :
    schedule_calendar_anchored_message ⟨[], [], []⟩ "m1"
        { latest_send_offset := some "garbage" } (some ⟨"e1", "", 100⟩) 200 =
      .ok (.NotReady, ⟨[], [], []⟩) :=
  resolve_past_event_guard ⟨[], [], []⟩ "m1" { latest_send_offset := some "garbage" }
    ⟨"e1", "", 100⟩ 200 0 (by decide) (by decide) (by decide)

/-- Counterexample to C4 as stated.  First: an already-tracked pair whose
event start is in the past returns `AlreadyTracked`, not the claimed
`NotReady`.  Second: "regardless of the values of offset" fails — a
malformed `offset` raises before the past-event check (line 471 precedes
line 478). -/
theorem past_event_claim_counterexample :
    (schedule_calendar_anchored_message
        ⟨[(("m1", "e1"), ⟨100, 90, "j", .scheduled⟩)], [], []⟩ "m1" {}
        (some ⟨"e1", "", 100⟩) 200 =
      .ok (.AlreadyTracked, ⟨[(("m1", "e1"), ⟨100, 90, "j", .scheduled⟩)], [], []⟩)) ∧
    (schedule_calendar_anchored_message ⟨[], [], []⟩ "m1" { offset := some "2x" }
        (some ⟨"e1", "", 100⟩) 200 =
      .error "Invalid offset format: '2x'. Use format like: -2h, -30m, -1d, -2w") :=
  ⟨by decide, by decide⟩

/-! ## Claim C3 — clamping of late sends -/

/-- C3: for a resolved event that is found, not already tracked, whose start
is not in the past and whose latest-send deadline (when configured) has not
passed, if the computed send time `startTime + offset` is before `now`, the
resolver returns `Scheduled`, registers the absolute-fire job at `now + 5`
seconds, and records the tracked event with that clamped send time. -/
theorem resolve_clamps_late_send (st : SchedulerState) (m : String)
    (anchor : CalendarAnchor) (E : Event) (now off : Int)
    (htr : is_event_scheduled st.tracker m E.id = false)
    (hoff : parse_offset (anchor.offset.getD "0m") = .ok off)
    (hfuture : ¬ E.startTime < now)
    (hlate : ∀ lstr, anchor.latest_send_offset = some lstr →
      ∃ lv, parse_offset lstr = .ok lv ∧ ¬ now > E.startTime + lv)
    (hpastsend : E.startTime + off < now) :
    ∃ st', schedule_calendar_anchored_message st m anchor (some E) now =
        .ok (.Scheduled, st') ∧
      st'.jobs.find? (job_id_matches ("calendar_" ++ m ++ "_" ++ E.id)) =
        some { id := "calendar_" ++ m ++ "_" ++ E.id, run_date := now + 5,
               event_id := E.id, message_config_id := m,
               event_start_time := E.startTime } ∧
      st'.tracker.find? (row_key_matches m E.id) =
        some ((m, E.id),
          { event_start_time := E.startTime, scheduled_send_time := now + 5,
            job_id := "calendar_" ++ m ++ "_" ++ E.id, status := .scheduled }) := by
  refine ⟨commit_schedule st m E (E.startTime + off) now, ?_, ?_, ?_⟩
  · simp only [schedule_calendar_anchored_message]
    rw [htr]
    rw [if_neg (by simp)]
    rw [hoff]
    dsimp only
    rw [if_neg hfuture]
    cases hl : anchor.latest_send_offset with
    | none => dsimp only
    | some lstr =>
      dsimp only
      obtain ⟨lv, hlv, hnd⟩ := hlate lstr hl
      rw [hlv]
      dsimp only
      rw [if_neg hnd]
  · show (add_job st.jobs _).find? _ = _
    have hclamp : (if E.startTime + off < now then now + 5 else E.startTime + off) =
        now + 5 := if_pos hpastsend
    simp only [commit_schedule, hclamp]
    exact find?_add_job st.jobs
      { id := "calendar_" ++ m ++ "_" ++ E.id, run_date := now + 5,
        event_id := E.id, message_config_id := m, event_start_time := E.startTime }
  · show (add_scheduled_event st.tracker m E.id E.startTime _ _).find? _ = _
    have hclamp : (if E.startTime + off < now then now + 5 else E.startTime + off) =
        now + 5 := if_pos hpastsend
    simp only [commit_schedule, hclamp]
    exact find?_add_scheduled_event st.tracker m E.id E.startTime (now + 5) _

/-! ## Claim C7 — `parse_offset` and the spec pattern -/

theorem offset_regex_match_unit {l : List Char} {v : Int} {u : Char}
    (h : offset_regex_match l = some (v, u)) :
    u = 'm' ∨ u = 'h' ∨ u = 'd' ∨ u = 'w' := by
  unfold offset_regex_match at h
  cases l with
  | nil => cases h
  | cons c rest =>
    dsimp only at h
    generalize (if c = '+' then ((1 : Int), rest)
      else if c = '-' then ((-1 : Int), rest) else ((1 : Int), c :: rest)) = sb at h
    obtain ⟨sgn, body⟩ := sb
    cases hg : body.getLast? with
    | none => rw [hg] at h; cases h
    | some u' =>
      rw [hg] at h
      dsimp only at h
      by_cases hd : all_digits body.dropLast = true
      · rw [if_pos hd] at h
        by_cases hc : (u' = 'm' || u' = 'h' || u' = 'd' || u' = 'w') = true
        · rw [if_pos hc] at h
          injection h with h'
          injection h' with h1 h2
          subst h2
          simpa [decide_eq_true_eq, or_assoc] using hc
        · rw [if_neg hc] at h; cases h
      · rw [if_neg hd] at h; cases h

/-- The code's regex match composed with the unit branch agrees with the
spec pattern's denotation, character list by character list. -/
theorem offset_regex_pattern_agree (l : List Char) :
    offset_pattern_value l =
      (match offset_regex_match l with
       | none => none
       | some p =>
         if p.2 = 'm' then some (p.1 * 60)
         else if p.2 = 'h' then some (p.1 * 3600)
         else if p.2 = 'd' then some (p.1 * 86400)
         else if p.2 = 'w' then some (p.1 * 604800)
         else none) := by
  unfold offset_pattern_value offset_regex_match
  cases l with
  | nil => rfl
  | cons c rest =>
    dsimp only
    generalize (if c = '+' then ((1 : Int), rest)
      else if c = '-' then ((-1 : Int), rest) else ((1 : Int), c :: rest)) = sb
    obtain ⟨sgn, body⟩ := sb
    cases hg : body.getLast? with
    | none => rfl
    | some u =>
      dsimp only
      by_cases hd : all_digits body.dropLast = true
      · rw [if_pos hd, if_pos hd]
        by_cases hm : u = 'm'
        · subst hm; rfl
        · by_cases hh : u = 'h'
          · subst hh; rfl
          · by_cases hdd : u = 'd'
            · subst hdd; rfl
            · by_cases hw : u = 'w'
              · subst hw; rfl
              · rw [if_neg hm, if_neg hh, if_neg hdd, if_neg hw]
                rw [if_neg (by simp [hm, hh, hdd, hw])]
      · rw [if_neg hd, if_neg hd]

/-- `parse_offset` is the spec pattern applied to the lowercased input:
success with the pattern's value when the lowercasing matches, the
descriptive `ValueError` otherwise. -/
theorem parse_offset_eq_pattern (s : String) :
    parse_offset s =
      (match offset_pattern_value ((str_lower s).data) with
       | some v => Except.ok v
       | none => Except.error ("Invalid offset format: '" ++ s ++
           "'. Use format like: -2h, -30m, -1d, -2w")) := by
  unfold parse_offset
  rw [offset_regex_pattern_agree ((str_lower s).data)]
  cases hm : offset_regex_match ((str_lower s).data) with
  | none => rfl
  | some p =>
    obtain ⟨v, u⟩ := p
    dsimp only
    by_cases h1 : u = 'm'
    · subst h1; rfl
    · by_cases h2 : u = 'h'
      · subst h2; rfl
      · by_cases h3 : u = 'd'
        · subst h3; rfl
        · by_cases h4 : u = 'w'
          · subst h4; rfl
          · exact absurd (offset_regex_match_unit hm) (by simp [h1, h2, h3, h4])

/-- C7 (amended): `parse_offset` accepts exactly the strings whose
LOWERCASING matches `^[+-]?\d+[mhdw]$` — the units (and hence the whole
pattern) are matched case-insensitively — returning the signed duration in
minutes/hours/days/weeks and raising the descriptive `ValueError` on
everything else; in particular `parseOffset("-2h") = -2` hours,
`parseOffset("30m") = +30` minutes, and `parseOffset("2x")` raises. -/
theorem parse_offset_characterization :
    (∀ s : String, parse_offset s =
      (match offset_pattern_value ((str_lower s).data) with
       | some v => Except.ok v
       | none => Except.error ("Invalid offset format: '" ++ s ++
           "'. Use format like: -2h, -30m, -1d, -2w"))) ∧
    parse_offset "-2h" = .ok (-7200) ∧
    parse_offset "30m" = .ok 1800 ∧
    parse_offset "2x" =
      .error "Invalid offset format: '2x'. Use format like: -2h, -30m, -1d, -2w" :=
  ⟨parse_offset_eq_pattern, by decide, by decide, by decide⟩

/-- Counterexample to C7 as stated: `"2H"` does not match the claimed
pattern `^[+-]?\d+[mhdw]$`, yet `parse_offset` accepts it (the code matches
against `offset_str.lower()`, line 405), so the acceptance set is strictly
larger than the claim's. -/
theorem parse_offset_case_counterexample :
    parse_offset "2H" = .ok 7200 ∧
    matches_offset_pattern "2H" = false ∧
    matches_offset_pattern "2h" = true :=
  ⟨by decide, by decide, by decide⟩

/-! ## Claim C8 — `sent` status under tracker operations -/

theorem tracker_status_mark_as_sent (t : Tracker) (m e m' e' : String)
    (h : tracker_status t m e = some .sent) :
    tracker_status (mark_as_sent t m' e') m e = some .sent := by
  induction t with
  | nil => simp [tracker_status] at h
  | cons p rest ih =>
    unfold tracker_status at h ⊢
    unfold mark_as_sent
    cases hp : row_key_matches m e p with
    | true =>
      rw [List.find?_cons_of_pos _ hp] at h
      simp only [Option.map_some'] at h
      injection h with h'
      simp only [List.map_cons]
      have hkey : row_key_matches m e
          (if p.1 = (m', e') then (p.1, { p.2 with status := .sent }) else p) = true := by
        by_cases hq : p.1 = (m', e')
        · rw [if_pos hq]; simpa [row_key_matches] using hp
        · rw [if_neg hq]; exact hp
      rw [List.find?_cons_of_pos _ hkey]
      by_cases hq : p.1 = (m', e')
      · simp [if_pos hq]
      · simp [if_neg hq, h']
    | false =>
      rw [List.find?_cons_of_neg _ (by simp [hp])] at h
      simp only [List.map_cons]
      rw [List.find?_cons_of_neg _ (by
        by_cases hq : p.1 = (m', e')
        · rw [if_pos hq]; simpa [row_key_matches, hq] using hp
        · rw [if_neg hq]; simp [hp])]
      exact ih h

/-- C8 (amended): over every sequence of tracker operations AS THE SCHEDULER
ISSUES THEM — `add_scheduled_event` only after `is_event_scheduled` returned
false (the resolver's guard), `mark_as_sent` freely — a record that has
reached status `sent` keeps status `sent`. -/
theorem guarded_ops_preserve_sent (ops : List TrackerOp) (t : Tracker) (m e : String)
    (h : tracker_status t m e = some .sent) :
    tracker_status (ops.foldl apply_guarded_op t) m e = some .sent := by
  induction ops generalizing t with
  | nil => exact h
  | cons op rest ih =>
    rw [List.foldl_cons]
    apply ih
    cases op with
    | markSent m' e' => exact tracker_status_mark_as_sent t m e m' e' h
    | add m' e' est sst jid =>
      unfold apply_guarded_op
      dsimp only
      cases hs : is_event_scheduled t m' e' with
      | true => simpa using h
      | false =>
        rw [if_neg (by simp)]
        have hnone := find?_eq_none_of_not_tracked hs
        have hany := any_eq_false_of_find?_eq_none hnone
        unfold add_scheduled_event
        rw [if_neg (by simp [hany])]
        unfold tracker_status at h ⊢
        cases hf : t.find? (row_key_matches m e) with
        | none => rw [hf] at h; cases h
        | some p =>
          rw [hf] at h
          rw [find?_append_some hf]
          exact h

/-- Witness for C8 at a concrete input: a `sent` record survives a guarded
re-add for its own key and a `mark_as_sent` for another key. -/
theorem guarded_ops_preserve_sent_witness :
    tracker_status
      (([TrackerOp.add "m" "e" 3 4 "j2", TrackerOp.markSent "m2" "e2"]).foldl
        apply_guarded_op [(("m", "e"), ⟨1, 2, "j", .sent⟩)]) "m" "e" = some .sent :=
  guarded_ops_preserve_sent [TrackerOp.add "m" "e" 3 4 "j2", TrackerOp.markSent "m2" "e2"]
    [(("m", "e"), ⟨1, 2, "j", .sent⟩)] "m" "e" (by decide)

/-- Counterexample to C8 as stated (over ALL raw tracker-operation
sequences): after `add; mark_as_sent` the record is `sent`, but a further
raw `add_scheduled_event` for the same key REVERTS it to `scheduled` —
`INSERT OR REPLACE` overwrites the whole row (lines 139-143). -/
theorem sent_revert_counterexample :
    tracker_status (apply_tracker_op (apply_tracker_op [] (.add "m" "e" 1 2 "j"))
        (.markSent "m" "e")) "m" "e" = some .sent ∧
    tracker_status (apply_tracker_op (apply_tracker_op (apply_tracker_op []
        (.add "m" "e" 1 2 "j")) (.markSent "m" "e")) (.add "m" "e" 3 4 "j2"))
      "m" "e" = some .scheduled :=
  ⟨by decide, by decide⟩

/-! ## Claim C9 — the reload clearing step -/

/-- C9 (amended): the clearing step of a reload removes ALL jobs — the
time-based ones and the calendar-anchored ones registered in the durable
store alike (`remove_all_jobs()` takes no job-store argument) — and empties
the in-memory calendar-anchored config list; only the event-dispatch
tracker records survive the clearing step. -/
theorem reload_clear_step_spec (st : SchedulerState) :
    (reload_clear_step st).jobs = [] ∧
    (reload_clear_step st).calendar_anchored_configs = [] ∧
    (reload_clear_step st).tracker = st.tracker :=
  ⟨rfl, rfl, rfl⟩

/-- Counterexample to C9 as stated: a calendar-anchored job present in the
durable job store before a reload is NOT left in place by the clearing
step — it is removed along with everything else. -/
theorem reload_clear_counterexample :
    (reload_clear_step ⟨[], [⟨"calendar_m1_e1", 1000, "e1", "m1", 1000⟩], []⟩).jobs = [] ∧
    ¬ (⟨"calendar_m1_e1", 1000, "e1", "m1", 1000⟩ : Job) ∈
      (reload_clear_step ⟨[], [⟨"calendar_m1_e1", 1000, "e1", "m1", 1000⟩], []⟩).jobs :=
  ⟨rfl, by decide⟩

/-! ## Claim C10 — reconciliation isolation -/

/-- A step whose resolution raises leaves the accumulator untouched (the
`except` clause at lines 563-564). -/
theorem reconcile_step_error {calendar : CalConfig → Option Event} {now : Int}
    {acc : SchedulerState × Nat} {config : CalConfig} {msg : String}
    (h : schedule_calendar_anchored_message acc.1 config.id config.calendar_anchor
      (calendar config) now = .error msg) :
    reconcile_step calendar now acc config = acc := by
  unfold reconcile_step
  rw [h]

/-- C10: within one reconciliation tick, a config whose resolution raises is
skipped — the `except` swallows the exception, state and count are
unchanged by it — and every remaining config is still processed; the tick
itself returns a value, never the exception. -/
theorem reconcile_isolation (calendar : CalConfig → Option Event) (now : Int)
    (st : SchedulerState) (cs₁ cs₂ : List CalConfig) (c : CalConfig) (msg : String)
    (hconfigs : st.calendar_anchored_configs = cs₁ ++ c :: cs₂)
    (herr : schedule_calendar_anchored_message
        (List.foldl (reconcile_step calendar now) (st, 0) cs₁).1 c.id
        c.calendar_anchor (calendar c) now = .error msg) :
    reconcile_calendar_messages calendar now st =
      List.foldl (reconcile_step calendar now)
        (List.foldl (reconcile_step calendar now) (st, 0) cs₁) cs₂ := by
  unfold reconcile_calendar_messages
  rw [hconfigs, List.foldl_append, List.foldl_cons]
  rw [reconcile_step_error herr]

/-- Witness for C10 at a concrete input: the first config raises
(`offset = "2x"`), the second is still resolved in the same tick. -/
theorem reconcile_isolation_witness :
    reconcile_calendar_messages (fun _ => some ⟨"ev1", "", 1000⟩) 500
        ⟨[], [], [⟨"bad", { offset := some "2x" }, ""⟩, ⟨"good", {}, ""⟩]⟩ =
      List.foldl (reconcile_step (fun _ => some ⟨"ev1", "", 1000⟩) 500)
        (List.foldl (reconcile_step (fun _ => some ⟨"ev1", "", 1000⟩) 500)
          (⟨[], [], [⟨"bad", { offset := some "2x" }, ""⟩, ⟨"good", {}, ""⟩]⟩, 0) [])
        [⟨"good", {}, ""⟩] :=
  reconcile_isolation (fun _ => some ⟨"ev1", "", 1000⟩) 500
    ⟨[], [], [⟨"bad", { offset := some "2x" }, ""⟩, ⟨"good", {}, ""⟩]⟩
    [] [⟨"good", {}, ""⟩] ⟨"bad", { offset := some "2x" }, ""⟩
    "Invalid offset format: '2x'. Use format like: -2h, -30m, -1d, -2w"
    rfl (by decide)

/-! ## Claim C6 — redundant-key validation -/

theorem mem_insert_sorted {x y : String} {l : List String} :
    y ∈ insert_sorted x l ↔ y = x ∨ y ∈ l := by
  induction l with
  | nil => simp [insert_sorted]
  | cons a l ih =>
    unfold insert_sorted
    by_cases h : chars_le x.data a.data = true
    · rw [if_pos h]
      simp [List.mem_cons]
    · rw [if_neg h]
      simp only [List.mem_cons, ih]
      tauto

theorem mem_sort_strings {y : String} {l : List String} :
    y ∈ sort_strings l ↔ y ∈ l := by
  induction l with
  | nil => simp [sort_strings]
  | cons a l ih =>
    simp only [sort_strings, mem_insert_sorted, ih, List.mem_cons]

theorem infix_str_append_left (l : List Char) (a b : String)
    (h : l <:+: b.data) : l <:+: (a ++ b).data := by
  rw [String.data_append]
  exact h.trans (List.suffix_append a.data b.data).isInfix

theorem infix_str_append_right (l : List Char) (a b : String)
    (h : l <:+: a.data) : l <:+: (a ++ b).data := by
  rw [String.data_append]
  exact h.trans (List.prefix_append a.data b.data).isInfix

theorem quote_join_contains (k : String) : ∀ (l : List String), k ∈ l →
    k.data <:+: (quote_join l).data := by
  intro l
  induction l with
  | nil => intro h; cases h
  | cons x xs ih =>
    intro hk
    rcases List.mem_cons.mp hk with rfl | hk'
    · cases xs with
      | nil =>
        show k.data <:+: ("'" ++ k ++ "'").data
        exact infix_str_append_right _ _ _ (infix_str_append_left _ _ _ ⟨[], [], by simp⟩)
      | cons y ys =>
        show k.data <:+: ("'" ++ k ++ "', " ++ quote_join (y :: ys)).data
        exact infix_str_append_right _ _ _
          (infix_str_append_right _ _ _
            (infix_str_append_left _ _ _ ⟨[], [], by simp⟩))
    · cases xs with
      | nil => cases hk'
      | cons y ys =>
        show k.data <:+: ("'" ++ x ++ "', " ++ quote_join (y :: ys)).data
        exact infix_str_append_left _ _ _ (ih hk')

theorem py_str_list_contains (k : String) (l : List String) (h : k ∈ l) :
    k.data <:+: (py_str_list l).data := by
  unfold py_str_list
  exact infix_str_append_right _ _ _
    (infix_str_append_left _ _ _ (quote_join_contains k l h))

/-- C6 (amended): the allowed field set is `base_keys` — which contains
`interval` for EVERY frequency, not only `daily` — united with the
frequency-specific fields; whenever a recognized frequency's schedule block
carries keys outside that set, `validate_schedule` raises a
`ScheduleValidationError` whose message names each redundant key. -/
theorem validate_redundant_keys (s : Schedule) (i : Nat) (spec : List String)
    (hfreq : frequency_specific_keys (s.frequency.getD "once") = some spec)
    (hred : (provided_keys s).filter (fun k => !((base_keys ++ spec).contains k)) ≠ []) :
    ∃ msg, validate_schedule s i = .error msg ∧
      ∀ k ∈ (provided_keys s).filter (fun k => !((base_keys ++ spec).contains k)),
        k.data <:+: msg.data := by
  unfold validate_schedule
  rw [hfreq]
  dsimp only
  rw [if_pos hred]
  refine ⟨_, rfl, ?_⟩
  intro k hk
  have h1 : k ∈ sort_strings ((provided_keys s).filter
      (fun k => !((base_keys ++ spec).contains k))) := mem_sort_strings.mpr hk
  have h2 := py_str_list_contains k _ h1
  exact infix_str_append_right _ _ _
    (infix_str_append_right _ _ _ (infix_str_append_left _ _ _ h2))

/-- Witness for C6 at a concrete input: a `daily` block with the stray key
`funfield`. -/
theorem validate_redundant_keys_witness :
    ∃ msg, validate_schedule { frequency := some "daily", extra_keys := ["funfield"] } 1 =
        .error msg ∧
      ∀ k ∈ (provided_keys { frequency := some "daily", extra_keys := ["funfield"] }).filter
          (fun k => !((base_keys ++ ["end_conditions"]).contains k)),
        k.data <:+: msg.data :=
  validate_redundant_keys { frequency := some "daily", extra_keys := ["funfield"] } 1
    ["end_conditions"] (by decide) (by decide)

/-- Counterexample to C6 as stated: per the claim, `interval` is recognized
only for `daily`, so this weekly block's field set is not a subset of the
claim's allowed set and validation should raise — but the code's
`base_keys` contains `interval` for every frequency (line 278) and the
block validates cleanly. -/
theorem redundant_keys_claim_counterexample :
    validate_schedule { frequency := some "weekly", days_of_week := some ["monday"], interval := some 2 } 1 = .ok () ∧
    "interval" ∈ provided_keys { frequency := some "weekly", days_of_week := some ["monday"], interval := some 2 } ∧
    "interval" ∉ claim_allowed_keys "weekly" :=
  ⟨by decide, by decide, by decide⟩

/-! ## Claim C5 — validate-then-compile -/

theorem except_isOk_iff {ε α : Type} (e : Except ε α) :
    e.isOk = true ↔ ∃ a, e = .ok a := by
  cases e <;> simp [Except.isOk, Except.toBool]

theorem band_true {a b : Bool} (h : (a && b) = true) : a = true ∧ b = true := by
  cases a <;> cases b <;> simp_all

theorem ne_of_isDigit {c : Char} (h : c.isDigit = true) (d : Char)
    (hd : d.isDigit = false) : c ≠ d := by
  intro he
  subst he
  rw [h] at hd
  cases hd

theorem not_space_of_isDigit {c : Char} (h : c.isDigit = true) :
    is_py_space c = false := by
  have h1 := ne_of_isDigit h ' ' (by decide)
  have h2 := ne_of_isDigit h '\t' (by decide)
  have h3 := ne_of_isDigit h '\n' (by decide)
  have h4 := ne_of_isDigit h '\r' (by decide)
  simp [is_py_space, h1, h2, h3, h4]

theorem dropWhile_eq_self_of_all {α : Type} {p : α → Bool} {l : List α}
    (h : ∀ a ∈ l, p a = false) : l.dropWhile p = l := by
  cases l with
  | nil => rfl
  | cons a t =>
    rw [List.dropWhile_cons, h a (by simp)]
    simp

theorem strip_spaces_of_digits {l : List Char} (h : l.all Char.isDigit = true) :
    strip_spaces l = l := by
  have hns : ∀ a ∈ l, is_py_space a = false := fun a ha =>
    not_space_of_isDigit (List.all_eq_true.mp h a ha)
  unfold strip_spaces
  rw [dropWhile_eq_self_of_all hns]
  rw [dropWhile_eq_self_of_all (fun a ha => hns a (List.mem_reverse.mp ha))]
  exact List.reverse_reverse l

theorem du_rest_of_digits : ∀ l : List Char, l.all Char.isDigit = true →
    digits_underscore.du_rest l = true := by
  intro l
  induction l with
  | nil => intro _; rfl
  | cons c t ih =>
    intro h
    rw [List.all_cons] at h
    obtain ⟨hc, ht⟩ := band_true h
    unfold digits_underscore.du_rest
    rw [if_neg (ne_of_isDigit hc '_' (by decide))]
    rw [hc, ih ht]
    rfl

theorem digits_underscore_of_digits {l : List Char} (hne : l ≠ [])
    (h : l.all Char.isDigit = true) : digits_underscore l = true := by
  cases l with
  | nil => exact absurd rfl hne
  | cons c t =>
    rw [List.all_cons] at h
    obtain ⟨hc, ht⟩ := band_true h
    unfold digits_underscore
    dsimp only
    rw [hc, du_rest_of_digits t ht]
    rfl

theorem py_int_core_isSome_of_digits {l : List Char} (h : all_digits l = true) :
    (py_int_core l).isSome = true := by
  unfold all_digits at h
  obtain ⟨hne, hdg⟩ := band_true h
  unfold py_int_core
  rw [strip_spaces_of_digits hdg]
  cases l with
  | nil => simp at hne
  | cons c rest =>
    rw [List.all_cons] at hdg
    obtain ⟨hc, ht⟩ := band_true hdg
    dsimp only
    rw [if_neg (ne_of_isDigit hc '+' (by decide))]
    rw [if_neg (ne_of_isDigit hc '-' (by decide))]
    rw [if_pos (digits_underscore_of_digits (by simp) (by rw [List.all_cons]; simp [hc, ht]))]
    rfl

theorem hour_ok_all_digits {l : List Char} (h : hour_ok l = true) :
    all_digits l = true := by
  unfold hour_ok at h
  exact (band_true (band_true h).1).1

theorem minute_ok_all_digits {l : List Char} (h : minute_ok l = true) :
    all_digits l = true := by
  unfold minute_ok at h
  exact (band_true (band_true h).1).1

theorem split_time_isOk {t : String} (h : is_valid_time t = true) :
    (split_time t).isOk = true := by
  unfold is_valid_time parse_time_hm at h
  unfold split_time
  cases hsp : split_on_char ':' t.data with
  | nil => (try rw [hsp] at h); simp at h
  | cons a rest =>
    cases rest with
    | nil => (try rw [hsp] at h); simp at h
    | cons b rest2 =>
      cases rest2 with
      | cons c rest3 => (try rw [hsp] at h); simp at h
      | nil =>
        (try rw [hsp] at h)
        (try rw [hsp])
        dsimp only at h ⊢
        by_cases hab : (hour_ok a && minute_ok b) = true
        · obtain ⟨ha, hb⟩ := band_true hab
          obtain ⟨va, hva⟩ := Option.isSome_iff_exists.mp
            (py_int_core_isSome_of_digits (hour_ok_all_digits ha))
          obtain ⟨vb, hvb⟩ := Option.isSome_iff_exists.mp
            (py_int_core_isSome_of_digits (minute_ok_all_digits hb))
          rw [hva, hvb]
          rfl
        · rw [if_neg hab] at h
          simp at h

theorem parse_end_conditions_isOk {today : Int} {ec : EndConditions}
    (h : ec_ok ec = true) : (parse_end_conditions today ec).isOk = true := by
  unfold ec_ok at h
  unfold parse_end_conditions
  cases hd : ec.end_after_duration with
  | none => rfl
  | some dur =>
    rw [hd] at h
    dsimp only at h ⊢
    cases hg : dur.data.getLast? with
    | none =>
      (try rw [hg] at h)
      (try rw [hg])
      rfl
    | some u =>
      (try rw [hg] at h)
      (try rw [hg])
      dsimp only at h ⊢
      by_cases h1 : u = 'd'
      · rw [if_pos h1]
        rw [if_pos (by simp [h1])] at h
        obtain ⟨v, hv⟩ := Option.isSome_iff_exists.mp h
        rw [hv]
        rfl
      · rw [if_neg h1]
        by_cases h2 : u = 'w'
        · rw [if_pos h2]
          rw [if_pos (by simp [h2])] at h
          obtain ⟨v, hv⟩ := Option.isSome_iff_exists.mp h
          rw [hv]
          rfl
        · rw [if_neg h2]
          by_cases h3 : u = 'm'
          · rw [if_pos h3]
            rw [if_pos (by simp [h3])] at h
            obtain ⟨v, hv⟩ := Option.isSome_iff_exists.mp h
            rw [hv]
            rfl
          · rw [if_neg h3]
            rfl

theorem freq_values {f : String} (h : (frequency_specific_keys f).isSome = true) :
    f = "once" ∨ f = "daily" ∨ f = "weekly" ∨ f = "monthly" := by
  unfold frequency_specific_keys at h
  split_ifs at h with h1 h2 h3 h4
  · exact Or.inl h1
  · exact Or.inr (Or.inl h2)
  · exact Or.inr (Or.inr (Or.inl h3))
  · exact Or.inr (Or.inr (Or.inr h4))
  · simp at h

theorem validate_ok_freq_isSome {s : Schedule} {i : Nat}
    (hv : validate_schedule s i = .ok ()) :
    (frequency_specific_keys (s.frequency.getD "once")).isSome = true := by
  unfold validate_schedule at hv
  cases hfs : frequency_specific_keys (s.frequency.getD "once") with
  | none => rw [hfs] at hv; exact absurd hv (by simp)
  | some spec => simp [hfs]

theorem validate_ok_time {s : Schedule} {i : Nat}
    (hv : validate_schedule s i = .ok ()) :
    s.time.getD "" = "" ∨ is_valid_time (s.time.getD "") = true := by
  unfold validate_schedule at hv
  split at hv
  · exact absurd hv (by simp)
  · split at hv
    · exact absurd hv (by simp)
    · split at hv
      · exact absurd hv (by simp)
      · split at hv
        · exact absurd hv (by simp)
        · split at hv
          · exact absurd hv (by simp)
          · split at hv
            · exact absurd hv (by simp)
            · split at hv
              · exact absurd hv (by simp)
              · split at hv
                · exact absurd hv (by simp)
                · rename_i htime
                  by_cases he : s.time.getD "" = ""
                  · exact Or.inl he
                  · right
                    by_cases hval : is_valid_time (s.time.getD "") = true
                    · exact hval
                    · exact absurd ⟨he, fun hv2 => hval hv2⟩ htime

theorem validate_ok_date {s : Schedule} {i : Nat}
    (hv : validate_schedule s i = .ok ()) :
    s.start_date.getD "" = "" ∨ is_valid_date (s.start_date.getD "") = true := by
  unfold validate_schedule at hv
  split at hv
  · exact absurd hv (by simp)
  · split at hv
    · exact absurd hv (by simp)
    · split at hv
      · exact absurd hv (by simp)
      · split at hv
        · exact absurd hv (by simp)
        · split at hv
          · exact absurd hv (by simp)
          · split at hv
            · exact absurd hv (by simp)
            · split at hv
              · exact absurd hv (by simp)
              · split at hv
                · exact absurd hv (by simp)
                · split at hv
                  · exact absurd hv (by simp)
                  · rename_i hdate
                    by_cases he : s.start_date.getD "" = ""
                    · exact Or.inl he
                    · right
                      by_cases hval : is_valid_date (s.start_date.getD "") = true
                      · exact hval
                      · exact absurd ⟨he, fun hv2 => hval hv2⟩ hdate

theorem validate_ok_monthly {s : Schedule} {i : Nat}
    (hv : validate_schedule s i = .ok ())
    (hf : s.frequency.getD "once" = "monthly") :
    s.day_of_month.isSome = true ∨
      (s.week_of_month.isSome = true ∧ s.day_of_week.isSome = true) := by
  unfold validate_schedule at hv
  split at hv
  · exact absurd hv (by simp)
  · split at hv
    · exact absurd hv (by simp)
    · split at hv
      · exact absurd hv (by simp)
      · split at hv
        · exact absurd hv (by simp)
        · split at hv
          · exact absurd hv (by simp)
          · split at hv
            · exact absurd hv (by simp)
            · rename_i hmon
              by_cases hd : s.day_of_month.isSome = true
              · exact Or.inl hd
              · by_cases hw : s.week_of_month.isSome = true ∧ s.day_of_week.isSome = true
                · exact Or.inr hw
                · exact absurd ⟨hf, fun hc => hc.elim (fun h1 => hd h1) (fun h2 => hw h2)⟩ hmon

theorem validate_then_compile_ok (today : Int) (s : Schedule) (i : Nat)
    (hv : validate_schedule s i = .ok ())
    (hsd : s.frequency.getD "once" = "once" → s.start_date.getD "" ≠ "")
    (ht : s.time ≠ some "")
    (hec : ∀ ec, s.end_conditions = some ec → ec_ok ec = true) :
    (create_trigger today s).isOk = true ∧
    ∀ d : String, str_lower d ∈ canonical_day_names →
      day_mapping_lookup d ∈ day_abbreviations := by
  constructor
  · have htime : is_valid_time (s.time.getD "00:00") = true := by
      cases hts : s.time with
      | none => decide
      | some t =>
        have hne : t ≠ "" := by
          intro he
          exact ht (by rw [hts, he])
        have hd := validate_ok_time hv
        rw [hts] at hd
        simp only [Option.getD_some] at hd
        (try rw [hts])
        simp only [Option.getD_some]
        tauto
    obtain ⟨p, hp⟩ := (except_isOk_iff _).mp (split_time_isOk htime)
    obtain ⟨hh, mm⟩ := p
    have hecok : (parse_end_conditions today (s.end_conditions.getD {})).isOk = true := by
      cases hce : s.end_conditions with
      | none => rfl
      | some ec => exact parse_end_conditions_isOk (hec ec hce)
    obtain ⟨pe, hpe⟩ := (except_isOk_iff _).mp hecok
    unfold create_trigger
    rw [hp]
    dsimp only
    rw [hpe]
    dsimp only
    rcases freq_values (validate_ok_freq_isSome hv) with hf | hf | hf | hf
    · rw [hf]
      rw [if_pos rfl]
      cases hsdv : s.start_date with
      | none => exact absurd (by rw [hsdv]; rfl) (hsd hf)
      | some sd =>
        have hsdne : sd ≠ "" := by
          intro he
          exact (hsd hf) (by rw [hsdv, he]; rfl)
        (try rw [hsdv])
        unfold truthy_str
        dsimp only
        rw [if_neg hsdne]
        dsimp only
        have hdate := validate_ok_date hv
        rw [hsdv] at hdate
        simp only [Option.getD_some] at hdate
        have hvd : is_valid_date sd = true := hdate.resolve_left hsdne
        unfold is_valid_date at hvd
        obtain ⟨yd, hpd⟩ := Option.isSome_iff_exists.mp hvd
        obtain ⟨y, mo, dd⟩ := yd
        rw [hpd]
        unfold is_valid_time at htime
        obtain ⟨tp, hpt⟩ := Option.isSome_iff_exists.mp htime
        obtain ⟨h2, m2⟩ := tp
        rw [hpt]
        rfl
    · rw [hf]
      rw [if_neg (by decide), if_pos rfl]
      rfl
    · rw [hf]
      rw [if_neg (by decide), if_neg (by decide), if_pos rfl]
      rfl
    · rw [hf]
      rw [if_neg (by decide), if_neg (by decide), if_neg (by decide), if_pos rfl]
      cases hdm : s.day_of_month with
      | some dom =>
        (try rw [hdm])
        dsimp only
        rfl
      | none =>
        (try rw [hdm])
        dsimp only
        have hrel := (validate_ok_monthly hv hf).resolve_left (by rw [hdm]; simp)
        obtain ⟨hwom, hdow⟩ := hrel
        obtain ⟨dow, hdw⟩ := Option.isSome_iff_exists.mp hdow
        rw [hdw]
        rfl
  · intro d hd
    simp only [canonical_day_names, List.mem_cons, List.not_mem_nil, or_false] at hd
    rcases hd with h | h | h | h | h | h | h <;>
      simp [day_mapping_lookup, h, day_abbreviations]

/-- Witness for C5 at a concrete input (a plain `daily` block, and the
upper-case day name `MONDAY`). -/
theorem validate_then_compile_ok_witness :
    (create_trigger 0 { frequency := some "daily" }).isOk = true ∧
    day_mapping_lookup "MONDAY" ∈ day_abbreviations :=
  ⟨(validate_then_compile_ok 0 { frequency := some "daily" } 1 (by decide)
      (by decide) (by decide) (fun _ h => Option.noConfusion h)).1,
   (validate_then_compile_ok 0 { frequency := some "daily" } 1 (by decide)
      (by decide) (by decide) (fun _ h => Option.noConfusion h)).2 "MONDAY" (by decide)⟩

/-- Counterexample to C5 as stated: four schedule blocks that
`validate_schedule` accepts without raising and on which `create_trigger`
then raises.  (1) `once` without `start_date` — validation never requires
it, the compiler does (line 596).  (2) `end_after_duration = "xd"` —
validation never inspects end-condition contents, `int("x")` raises in
`parse_end_conditions` (line 379).  (3) `time = ""` — the empty string is
falsy, so validation skips the format check (line 336), while the compiler
unpacks `''.split(':')` (line 587).  (4) `start_date = ""` — falsy, format
check skipped (line 346), and the falsy check in the `once` branch raises. -/
theorem validate_compile_counterexample :
    (validate_schedule { frequency := some "once", time := some "10:00" } 1 = .ok () ∧
      (create_trigger 0 { frequency := some "once", time := some "10:00" }).isOk = false) ∧
    (validate_schedule { frequency := some "daily", end_conditions := some { end_after_duration := some "xd" } } 1 = .ok () ∧
      (create_trigger 0 { frequency := some "daily", end_conditions := some { end_after_duration := some "xd" } }).isOk = false) ∧
    (validate_schedule { frequency := some "daily", time := some "" } 1 = .ok () ∧
      (create_trigger 0 { frequency := some "daily", time := some "" }).isOk = false) ∧
    (validate_schedule { frequency := some "once", start_date := some "" } 1 = .ok () ∧
      (create_trigger 0 { frequency := some "once", start_date := some "" }).isOk = false) :=
  ⟨⟨by decide, by decide⟩, ⟨by decide, by decide⟩, ⟨by decide, by decide⟩,
   ⟨by decide, by decide⟩⟩

/-- Witness for C3 at a concrete input (offset `-2h`, event in `now`'s
instant, ideal send time two hours past). -/
theorem resolve_clamps_late_send_witness :
    ∃ st', schedule_calendar_anchored_message ⟨[], [], []⟩ "m1"
        { offset := some "-2h" } (some ⟨"e1", "", 10000⟩) 10000 =
        .ok (.Scheduled, st') ∧
      st'.jobs.find? (job_id_matches ("calendar_" ++ "m1" ++ "_" ++ "e1")) =
        some { id := "calendar_" ++ "m1" ++ "_" ++ "e1", run_date := 10000 + 5,
               event_id := "e1", message_config_id := "m1",
               event_start_time := 10000 } ∧
      st'.tracker.find? (row_key_matches "m1" "e1") =
        some (("m1", "e1"),
          { event_start_time := 10000, scheduled_send_time := 10000 + 5,
            job_id := "calendar_" ++ "m1" ++ "_" ++ "e1", status := .scheduled }) :=
  resolve_clamps_late_send ⟨[], [], []⟩ "m1" { offset := some "-2h" }
    ⟨"e1", "", 10000⟩ 10000 (-7200) (by decide) (by decide) (by decide)
    (fun lstr h => by cases h) (by decide)

end AisRmBot
